import Mathlib

/- Shallow embedding of src/idmp_extraction.py: a Python 2 script that
   extracts selected measurement columns from IDMP Vaulx-en-Velin station
   data files, optionally filtered by month/day/hour.

   Modelling conventions:
   - Python strings are Lean `String` (a wrapper around `List Char`);
     `str.split` with a one-character separator is `pySplit`.
   - A Python exception that propagates out of the extraction loop (and so
     aborts the whole run with a traceback) is modelled by `none` in an
     `Option` result, or by `CheckResult.crash` in `check_values`.
   - A clean `sys.exit(EXIT_FAILURE)` with a message written to stderr is
     modelled by an explicit error value carrying the exit code and message.
   - The input file is a list of lines, each line as produced by Python
     file iteration, i.e. including its trailing newline character.
   - Machine integers are `Int`/`Nat` (no overflow concerns arise in the
     source: values are small dates, hours and column indices). -/

set_option maxRecDepth 100000

namespace Idmp

/-- Python single-character `str.split(sep)` on the underlying character
list: split at every occurrence of `sep`, keeping empty pieces; the empty
list splits to `[[]]` (Python: `"".split(sep) == [""]`). -/
def splitList (sep : Char) : List Char → List (List Char)
  | [] => [[]]
  | c :: cs =>
    if c = sep then [] :: splitList sep cs
    else
      match splitList sep cs with
      | [] => [[c]]
      | f :: r => (c :: f) :: r

/-- Build a `String` from a character list. -/
def strOf (l : List Char) : String := ⟨l⟩

/-- Python `s.split(sep)` for a one-character separator, on `String`. -/
def pySplit (sep : Char) (s : String) : List String :=
  (splitList sep s.data).map strOf

/-- Accumulate a decimal digit list into a natural number. -/
def digitsToNat (ds : List Char) : Nat :=
  ds.foldl (fun n c => 10 * n + (c.toNat - '0'.toNat)) 0

/-- Python 2 `int(string)`: optional surrounding whitespace, optional sign,
then a nonempty run of decimal digits; anything else raises `ValueError`
(modelled by `none`). -/
def pyParseInt (s : String) : Option Int :=
  let cs := s.data.dropWhile (fun c => c.isWhitespace)
  let (neg, cs) :=
    match cs with
    | '-' :: t => (true, t)
    | '+' :: t => (false, t)
    | t => (false, t)
  let ds := cs.takeWhile (fun c => c.isDigit)
  let rest := cs.dropWhile (fun c => c.isDigit)
  if ds = [] then none
  else if rest.all (fun c => c.isWhitespace) then
    some (if neg then -(digitsToNat ds : Int) else (digitsToNat ds : Int))
  else none

/-- The value of a parsed Python decimal float literal: a sign, the integer
part, and the digits after the decimal point. -/
structure PyFloat where
  neg : Bool
  ipart : Nat
  fracDigits : List Char
deriving DecidableEq

/-- Python 2 `float(string)`, restricted to plain decimal literals
(optional surrounding whitespace, optional sign, digits with an optional
decimal point).  Exponent forms and inf/nan are not modelled; none of the
claims settled here depends on them. -/
def pyParseFloat (s : String) : Option PyFloat :=
  let cs := s.data.dropWhile (fun c => c.isWhitespace)
  let (neg, cs) :=
    match cs with
    | '-' :: t => (true, t)
    | '+' :: t => (false, t)
    | t => (false, t)
  let ds := cs.takeWhile (fun c => c.isDigit)
  let cs1 := cs.dropWhile (fun c => c.isDigit)
  match cs1 with
  | '.' :: t =>
    let fs := t.takeWhile (fun c => c.isDigit)
    let rest := t.dropWhile (fun c => c.isDigit)
    if ds = [] ∧ fs = [] then none
    else if rest.all (fun c => c.isWhitespace) then some ⟨neg, digitsToNat ds, fs⟩
    else none
  | rest =>
    if ds = [] then none
    else if rest.all (fun c => c.isWhitespace) then some ⟨neg, digitsToNat ds, []⟩
    else none

/-- `float.is_integer()`: true when the fractional digits are all zero. -/
def PyFloat.isInteger (f : PyFloat) : Bool := f.fracDigits.all (fun c => c = '0')

/-- `int(<float>)`: truncation toward zero of a decimal value, i.e. the
signed integer part. -/
def PyFloat.intVal (f : PyFloat) : Int :=
  if f.neg then -(f.ipart : Int) else (f.ipart : Int)

/-- `[f a for a in l]` over fallible `f`: the first failure propagates
(Python: the first exception raised aborts the comprehension). -/
def mapOpt {α β : Type} (f : α → Option β) : List α → Option (List β)
  | [] => some []
  | a :: l => do
    let b ← f a
    let bs ← mapOpt f l
    pure (b :: bs)

/- Constants from the source (`Default settings` section). -/

def EXIT_SUCCESS : Nat := 0

def EXIT_FAILURE : Nat := 1

/-- `HEADER_LENGTH = 33  # lines` -/
def HEADER_LENGTH : Nat := 33

def MONTH : Nat := 0

def DAY : Nat := 1

def HOUR : Nat := 2

/-- `ALLOWED_VALUES = [[1,12],[1,31],[0,23]]` -/
def ALLOWED_VALUES : List (Int × Int) := [(1, 12), (1, 31), (0, 23)]

/-- `SLOT_NAME = ["Month","Day","Hour"]` -/
def SLOT_NAME : List String := ["Month", "Day", "Hour"]

/-- `PROGRAM = os.path.basename(sys.argv[0])`: a fixed representative value
is used, since the script is always invoked through this file name. -/
def PROGRAM : String := "idmp_extraction.py"

/-- The `PARAMS` dictionary: parameter code to (column index, description). -/
def PARAMS : String → Option (Nat × String)
  | "alts" => some (2, "altitude of the sun")
  | "azis" => some (3, "azimuth of the sun (from North to East)")
  | "evg" => some (4, "global horizontal illuminance")
  | "evd" => some (5, "diffuse horizontal illuminance")
  | "evgn" => some (6, "global vertical north illuminance")
  | "evge" => some (7, "global vertical east illuminance")
  | "evgs" => some (8, "global vertical south illuminance")
  | "evgw" => some (9, "global vertical west illuminance")
  | "eeg" => some (10, "global horizontal irradiance")
  | "eed" => some (11, "diffuse horizontal irradiance")
  | "lvz" => some (12, "zenith luminance (11 degree aperture)")
  | "rh" => some (13, "relative humidity")
  | "wd" => some (14, "wind direction (from North to East)")
  | "ws" => some (15, "wind speed")
  | "dbt" => some (16, "dry bulb temperature")
  | "cvf" => some (17, "illuminance shadow band correction factor")
  | "cef" => some (18, "irradiance shadow band correction factor")
  | "ees" => some (19, "direct horizontal irradiance")
  | "uva" => some (20, "global horizontal UVA irradiance")
  | "uvb" => some (21, "global horizontal UVB irradiance")
  | _ => none

/-- ASCII lower-casing of one character, as `str.lower` acts on the
parameter codes (which are ASCII). -/
def asciiLower (c : Char) : Char :=
  if 'A' ≤ c ∧ c ≤ 'Z' then Char.ofNat (c.toNat + 32) else c

/-- `str.lower` on a code string. -/
def pyLower (s : String) : String := strOf (s.data.map asciiLower)

/-- Message written by `check_params` on an unknown parameter code. -/
def WRONG_PARAM_MSG : String :=
  "Wrong parameter name.\nUse " ++ PROGRAM ++ " -l to see all allowed parameters.\n"

/-- `check_params(raw_params)`: lower-case every requested code and look
each one up in `PARAMS`; any failed lookup raises `KeyError`, caught and
turned into the fixed stderr message plus `sys.exit(EXIT_FAILURE)`. -/
def check_params (raw_params : List String) : Except (Nat × String) (List String) :=
  let params := raw_params.map pyLower
  if params.all (fun p => (PARAMS p).isSome) then Except.ok params
  else Except.error (EXIT_FAILURE, WRONG_PARAM_MSG)

/-- Outcome of `check_values`: a successful conversion, a clean
`sys.exit(EXIT_FAILURE)` with a stderr message, or an uncaught exception
(`ValueError` from `int(<string>)`) that kills the process with a
traceback. -/
inductive CheckResult where
  | ok (vals : List Int)
  | exitErr (code : Nat) (msg : String)
  | crash
deriving DecidableEq

def slotName (slot : Nat) : String := SLOT_NAME.getD slot ""

def MSG_COUNT (slot : Nat) : String :=
  slotName slot ++ " can have only 1 or 2 values.\nUse " ++ PROGRAM
    ++ " -u to have usage information.\n"

def MSG_NUMBER (slot : Nat) : String := slotName slot ++ "(s) must be an number"

def MSG_INTEGER (slot : Nat) : String :=
  slotName slot ++ "(s) value must be an integer, not a float"

def MSG_DOMAIN (slot : Nat) : String :=
  slotName slot ++ "(s) value must be between "
    ++ toString (ALLOWED_VALUES.getD slot (0, 0)).1 ++ " and "
    ++ toString (ALLOWED_VALUES.getD slot (0, 0)).2 ++ ".\n"

def MSG_ORDER (slot : Nat) : String :=
  slotName slot ++ " error : when using ranges, first value must be lower.\n"

/-- The `for v in v_range` loop body of `check_values`: each value must
parse as a float, be integral, and lie inside the slot domain; the first
violation exits.  `none` means the loop finished without exiting. -/
def checkLoop (slot : Nat) : List String → Option CheckResult
  | [] => none
  | v :: rest =>
    match pyParseFloat v with
    | none => some (CheckResult.exitErr EXIT_FAILURE (MSG_NUMBER slot))
    | some f =>
      if f.isInteger = false then some (CheckResult.exitErr EXIT_FAILURE (MSG_INTEGER slot))
      else if f.intVal < (ALLOWED_VALUES.getD slot (0, 0)).1
          ∨ (ALLOWED_VALUES.getD slot (0, 0)).2 < f.intVal then
        some (CheckResult.exitErr EXIT_FAILURE (MSG_DOMAIN slot))
      else checkLoop slot rest

/-- `map(int, v_range)` at the end of `check_values`: `int` is applied to
the original option strings, so a string that is not a plain integer
literal raises an uncaught `ValueError`. -/
def finalConvert (v_range : List String) : CheckResult :=
  match mapOpt pyParseInt v_range with
  | none => CheckResult.crash
  | some vs => CheckResult.ok vs

/-- `check_values(slot, v_range)` from the source, including the final
`int(v_range[0]) >= int(v_range[1])` comparison and `map(int, v_range)`
conversion, both applied to the raw strings. -/
def check_values (slot : Nat) (v_range : List String) : CheckResult :=
  if v_range.length > 2 then CheckResult.exitErr EXIT_FAILURE (MSG_COUNT slot)
  else
    match checkLoop slot v_range with
    | some r => r
    | none =>
      if v_range.length = 2 then
        match pyParseInt (v_range.getD 0 "") with
        | none => CheckResult.crash
        | some a =>
          match pyParseInt (v_range.getD 1 "") with
          | none => CheckResult.crash
          | some b =>
            if a ≥ b then CheckResult.exitErr EXIT_FAILURE (MSG_ORDER slot)
            else finalConvert v_range
      else finalConvert v_range

/-- `inside(date_or_time, m_d_h)` from the source.  The `try/except`
returns `False` when `m_d_h` is `None` (a `TypeError` from `len(None)`) or
an empty list (an `IndexError` from `m_d_h[0]`); integer comparisons never
raise. -/
def inside (date_or_time : Int) (m_d_h : Option (List Int)) : Bool :=
  match m_d_h with
  | none => false
  | some [] => false
  | some [v] => date_or_time == v
  | some (lo :: hi :: _) => decide (lo ≤ date_or_time ∧ date_or_time ≤ hi)

/-- The date/time parsing prefix of `selected_slot`:
`date = map(int, slot[0].split("/"))`, `time = map(int, slot[1].split(":"))`,
then the component accesses `date[0]`, `date[1]`, `time[0]`.  Any raised
exception (`IndexError` or `ValueError`) is `none` and propagates. -/
def parseSlot (slot : List String) : Option (Int × Int × Int) := do
  let s0 ← slot.get? 0
  let date ← mapOpt pyParseInt (pySplit '/' s0)
  let s1 ← slot.get? 1
  let time ← mapOpt pyParseInt (pySplit ':' s1)
  let mo ← date.get? 0
  let da ← date.get? 1
  let ho ← time.get? 0
  pure (mo, da, ho)

/-- `selected_slot(slot, nb_filter, month, day, hour)`: parse the date and
time components, score one point per passing filter slot, and select the
record when the score equals `nb_filter`. -/
def selected_slot (slot : List String) (nb_filter : Nat)
    (month day hour : Option (List Int)) : Option Bool :=
  match parseSlot slot with
  | none => none
  | some (mo, da, ho) =>
    some (decide ((inside mo month).toNat + (inside da day).toNat
      + (inside ho hour).toNat = nb_filter))

/-- Python truthiness of a month/day/hour option: `None` and the empty
list are falsy, a nonempty list is truthy. -/
def pyTruthy : Option (List Int) → Bool
  | none => false
  | some [] => false
  | some (_ :: _) => true

/-- `nb_filter = len(filter(None, [month, day, hour]))`. -/
def nb_filter (month day hour : Option (List Int)) : Nat :=
  (([month, day, hour]).filter pyTruthy).length

/-- `extract_params(datetime, params, fields, dst)` without the write: the
row it emits.  `PARAMS[p][0]` is looked up for every requested code first,
then `fields[i]` is read for every index; a `KeyError` or `IndexError`
propagates (`none`). -/
def extract_params (datetime : List String) (params : List String)
    (fields : List String) : Option (List String) :=
  match mapOpt (fun p => (PARAMS p).map Prod.fst) params with
  | none => none
  | some idxs =>
    match mapOpt (fun i => fields.get? i) idxs with
    | none => none
    | some vals => some (datetime ++ vals)

/-- `fields[0].split(" ")` for one raw line: the date/time word list of the
line (`fields = line.split("\t")` always has a first element). -/
def lineDatetime (line : String) : List String :=
  pySplit ' ' ((pySplit '\t' line).headD "")

/-- The `for line in src` loop of `extract_data`: `i` starts at 1 and is
incremented only while `i < HEADER_LENGTH` (preamble lines are skipped);
every later line is split on tab, its first field split on space, filtered
through `selected_slot`, and on success projected through
`extract_params`.  The collected rows are the data rows written to the
destination, in input order; `none` models an exception aborting the run. -/
def scanLines (month day hour : Option (List Int)) (params : List String)
    (nb : Nat) : Nat → List String → Option (List (List String))
  | _, [] => some []
  | i, line :: rest =>
    if i < HEADER_LENGTH then scanLines month day hour params nb (i + 1) rest
    else
      match selected_slot (lineDatetime line) nb month day hour with
      | none => none
      | some true =>
        match extract_params (lineDatetime line) params (pySplit '\t' line) with
        | none => none
        | some row => (scanLines month day hour params nb i rest).map (fun rows => row :: rows)
      | some false => scanLines month day hour params nb i rest

/-- `extract_data(month, day, hour, params, input, output)` as a function
from the input file lines to the emitted rows (header row first when
`PRINT_HEADER` holds, then the data rows). -/
def extract_data (month day hour : Option (List Int)) (params : List String)
    (printHeader : Bool) (lines : List String) : Option (List (List String)) :=
  let headerRows := if printHeader then [["MM/DD/YYYY", "hh:mm"] ++ params] else []
  Option.map (fun rows => headerRows ++ rows)
    (scanLines month day hour params (nb_filter month day hour) 1 lines)

/-- Python `sep.join` on character lists. -/
def joinList (sep : Char) : List (List Char) → List Char
  | [] => []
  | [x] => x
  | x :: y :: r => x ++ sep :: joinList sep (y :: r)

/-- `out(data, dst)`: the text one call writes, i.e. the fields joined with
a tab followed by one newline (`print` and `dst.write` agree on this). -/
def out (data : List String) : String :=
  strOf (joinList '\t' (data.map String.data) ++ ['\n'])

/-- The whole text written for a list of rows (one `out` call per row). -/
def renderOutput (rows : List (List String)) : String :=
  strOf ((rows.map (fun r => (out r).data)).flatten)

/- Helper lemmas about the temporal filter. -/

lemma inside_le_truthy (x : Int) (f : Option (List Int)) :
    (inside x f).toNat ≤ (pyTruthy f).toNat ∧
      ((inside x f).toNat = (pyTruthy f).toNat ↔ (pyTruthy f = true → inside x f = true)) := by
  match f with
  | none => simp [inside, pyTruthy]
  | some [] => simp [inside, pyTruthy]
  | some [v] => cases hb : (x == v) <;> simp [inside, pyTruthy, hb]
  | some (lo :: hi :: t) =>
    cases hb : decide (lo ≤ x ∧ x ≤ hi) <;> simp [inside, pyTruthy, hb]

lemma nb_filter_eq (m d h : Option (List Int)) :
    nb_filter m d h = (pyTruthy m).toNat + (pyTruthy d).toNat + (pyTruthy h).toNat := by
  cases hm : pyTruthy m <;> cases hd : pyTruthy d <;> cases hh : pyTruthy h <;>
    simp [nb_filter, List.filter, hm, hd, hh]

/-- C1: for every data record whose date/time prefix parses and every
configuration of the month/day/hour filters, the record is selected iff
every active (truthy, i.e. non-`None`) filter passes on its component: the
score counts passing constrained slots and is compared to the number of
active filters, so unconstrained slots contribute to neither side. -/
theorem c1_selected_iff_all_active_pass (slot : List String) (mo da ho : Int)
    (m d h : Option (List Int)) (hp : parseSlot slot = some (mo, da, ho)) :
    selected_slot slot (nb_filter m d h) m d h = some true ↔
      ((pyTruthy m = true → inside mo m = true) ∧
       (pyTruthy d = true → inside da d = true) ∧
       (pyTruthy h = true → inside ho h = true)) := by
  have k1 := inside_le_truthy mo m
  have k2 := inside_le_truthy da d
  have k3 := inside_le_truthy ho h
  simp only [selected_slot, hp, Option.some.injEq, Bool.decide_eq_true,
    decide_eq_true_eq]
  rw [nb_filter_eq]
  have l1 := k1.1
  have l2 := k2.1
  have l3 := k3.1
  constructor
  · intro H
    refine ⟨k1.2.mp ?_, k2.2.mp ?_, k3.2.mp ?_⟩ <;> omega
  · rintro ⟨p1, p2, p3⟩
    have e1 := k1.2.mpr p1
    have e2 := k2.2.mpr p2
    have e3 := k3.2.mpr p3
    omega

theorem c1_witness :
    selected_slot ["03/15/1998", "08:30"] (nb_filter (some [3]) none (some [8, 17]))
      (some [3]) none (some [8, 17]) = some true :=
  (c1_selected_iff_all_active_pass ["03/15/1998", "08:30"] 3 15 8 (some [3]) none
    (some [8, 17]) (by decide)).mpr (by decide)

/-- C3: an `ExactValue(v)` filter (a one-element list) passes iff the
component equals `v`; a `Range(lo, hi)` filter (a two-element list) passes
iff `lo ≤ component ≤ hi`, both endpoints inclusive. -/
theorem c3_exact_and_range_semantics (x v lo hi : Int) :
    (inside x (some [v]) = true ↔ x = v) ∧
      (inside x (some [lo, hi]) = true ↔ (lo ≤ x ∧ x ≤ hi)) := by
  constructor
  · simp [inside]
  · simp [inside]

/-- C4: with month, day and hour all unconstrained (`None`), every record
whose date/time prefix parses is selected. -/
theorem c4_zero_filters_select_all (slot : List String) (mo da ho : Int)
    (hp : parseSlot slot = some (mo, da, ho)) :
    selected_slot slot (nb_filter none none none) none none none = some true := by
  simp [selected_slot, hp, inside, nb_filter, pyTruthy, List.filter]

theorem c4_witness :
    selected_slot ["01/02/2003", "04:05"] (nb_filter none none none) none none none
      = some true :=
  c4_zero_filters_select_all ["01/02/2003", "04:05"] 1 2 4 (by decide)

/- Helper lemmas about the per-line loop. -/

lemma scanLines_shift (m d h : Option (List Int)) (ps : List String) (nb : Nat) :
    ∀ (ls : List String) (i : Nat), i ≤ HEADER_LENGTH →
      scanLines m d h ps nb i ls
        = scanLines m d h ps nb HEADER_LENGTH (ls.drop (HEADER_LENGTH - i)) := by
  intro ls
  induction ls with
  | nil => intro i _; simp [scanLines]
  | cons l rest ih =>
    intro i hi
    by_cases hlt : i < HEADER_LENGTH
    · rw [show scanLines m d h ps nb i (l :: rest) = scanLines m d h ps nb (i + 1) rest by
        simp [scanLines, hlt]]
      rw [ih (i + 1) hlt]
      have hd : HEADER_LENGTH - i = (HEADER_LENGTH - (i + 1)) + 1 := by omega
      rw [hd, List.drop_succ_cons]
    · have : i = HEADER_LENGTH := by omega
      subst this
      simp

/-- C8: the run is exactly the optional header followed by the scan of the
lines from 1-based index `HEADER_LENGTH` (= 33) on — the first 32 lines
are discarded unparsed — and a file with fewer than 33 lines yields the
header rows only (zero data rows), not an error. -/
theorem c8_preamble_classification (m d h : Option (List Int)) (ps : List String)
    (ph : Bool) (lines : List String) :
    extract_data m d h ps ph lines
        = Option.map (fun rows => (if ph then [["MM/DD/YYYY", "hh:mm"] ++ ps] else []) ++ rows)
            (scanLines m d h ps (nb_filter m d h) HEADER_LENGTH
              (lines.drop (HEADER_LENGTH - 1)))
      ∧ (lines.length < HEADER_LENGTH →
          extract_data m d h ps ph lines
            = some (if ph then [["MM/DD/YYYY", "hh:mm"] ++ ps] else [])) := by
  constructor
  · unfold extract_data
    rw [scanLines_shift m d h ps _ lines 1 (by decide)]
  · intro hlen
    unfold extract_data
    rw [scanLines_shift m d h ps _ lines 1 (by decide)]
    have h33 : HEADER_LENGTH = 33 := rfl
    have hdrop : lines.drop (HEADER_LENGTH - 1) = [] := by
      apply List.drop_eq_nil_of_le
      omega
    rw [hdrop]
    simp [scanLines]

theorem c8_witness :
    (["a", "b"] : List String).length < HEADER_LENGTH ∧
      extract_data none none none ["ws"] true ["a", "b"]
        = some [["MM/DD/YYYY", "hh:mm", "ws"]] :=
  ⟨by decide,
    (c8_preamble_classification none none none ["ws"] true ["a", "b"]).2 (by decide)⟩

/-- C9: with the header enabled the output is exactly one header row,
`["MM/DD/YYYY", "hh:mm"]` followed by the requested codes in order, in
front of precisely the rows produced with the header suppressed (whose
first row is therefore the first matching record). -/
theorem c9_header_row (m d h : Option (List Int)) (ps : List String)
    (lines : List String) :
    extract_data m d h ps true lines
      = Option.map (fun rows => (["MM/DD/YYYY", "hh:mm"] ++ ps) :: rows)
          (extract_data m d h ps false lines) := by
  unfold extract_data
  cases scanLines m d h ps (nb_filter m d h) 1 lines <;> simp

/-- C2 counterexample: a data line whose date/time prefix is malformed
aborts the whole run (`none`, an uncaught exception), and the following
well-formed matching record is lost — the scan does not continue; without
the malformed line the same record is emitted. -/
theorem c2_counterexample :
    extract_data none none none ["ws"] false
        (List.replicate 32 "p\n"
          ++ ["bad line\tx\n",
              "01/02/2003 04:05\tc01\tc02\tc03\tc04\tc05\tc06\tc07\tc08\tc09\tc10\tc11\tc12\tc13\tc14\tc15\tc16\n"])
        = none
      ∧ extract_data none none none ["ws"] false
          (List.replicate 32 "p\n"
            ++ ["01/02/2003 04:05\tc01\tc02\tc03\tc04\tc05\tc06\tc07\tc08\tc09\tc10\tc11\tc12\tc13\tc14\tc15\tc16\n"])
          = some [["01/02/2003", "04:05", "c15"]] := by
  constructor
  · rfl
  · rfl

/-- C2 amended: a data line whose date/time prefix does not parse raises an
uncaught exception in `selected_slot` and aborts the run at that line
(whatever the filters, parameters and remaining lines); only a missing
filter argument is failed closed, inside `inside`. -/
theorem c2_malformed_line_aborts (m d h : Option (List Int)) (ps : List String)
    (ph : Bool) (pre : List String) (bad : String) (rest : List String)
    (hpre : pre.length = 32) (hbad : parseSlot (lineDatetime bad) = none) :
    extract_data m d h ps ph (pre ++ bad :: rest) = none := by
  unfold extract_data
  rw [scanLines_shift m d h ps _ _ 1 (by decide)]
  have hdrop : (pre ++ bad :: rest).drop (HEADER_LENGTH - 1) = bad :: rest := by
    have h32 : HEADER_LENGTH - 1 = pre.length := by rw [hpre]; rfl
    rw [h32, List.drop_left]
  rw [hdrop]
  have hsel : selected_slot (lineDatetime bad) (nb_filter m d h) m d h = none := by
    unfold selected_slot
    rw [hbad]
  simp [scanLines, HEADER_LENGTH, hsel]

theorem c2_witness :
    parseSlot (lineDatetime "oops\tx\n") = none ∧
      extract_data none none none ["ws"] false
        (List.replicate 32 "p\n" ++ "oops\tx\n" :: ["later\n"]) = none :=
  ⟨by decide,
    c2_malformed_line_aborts none none none ["ws"] false (List.replicate 32 "p\n")
      "oops\tx\n" ["later\n"] (by decide) (by decide)⟩

/-- C5 (the code contradicts its own validation design): the month option
string "3.0" is numeric, integral — `float("3.0").is_integer()` holds, so
the validation loop deliberately lets it through — and its value 3 lies in
the month domain, so none of the rejection conditions applies and
construction should succeed with value 3 (as it does for "3"); instead the
final `map(int, v_range)` applies `int` to the raw string "3.0" and raises
an uncaught `ValueError` that kills the run with a traceback rather than a
configuration error or a success. -/
theorem c5_integral_float_crashes :
    (pyParseFloat "3.0").isSome = true ∧
      ((pyParseFloat "3.0").getD ⟨false, 0, []⟩).isInteger = true ∧
      ((pyParseFloat "3.0").getD ⟨false, 0, []⟩).intVal = 3 ∧
      check_values MONTH ["3.0"] = CheckResult.crash ∧
      check_values MONTH ["3"] = CheckResult.ok [3] :=
  ⟨rfl, rfl, rfl, rfl, rfl⟩

/-- C6 counterexample: the unknown code "zz" is rejected with exit code 1
and the fixed message, but that message does not name the offending code. -/
theorem c6_counterexample :
    check_params ["zz"] = Except.error (EXIT_FAILURE, WRONG_PARAM_MSG) ∧
      ¬ ("zz".data <:+: WRONG_PARAM_MSG.data) :=
  ⟨rfl, by decide⟩

/-- C6 amended: requested codes are matched case-insensitively (each code
is lower-cased before the catalog lookup) at configuration time; an
unrecognized code fails configuration with exit code 1 and a fixed error
message that references the `-l` parameter-listing option (the message
does not name the offending code). -/
theorem c6_unknown_param_error :
    (∀ raw : List String,
        check_params raw = Except.ok (raw.map pyLower) ↔
          ∀ p ∈ raw, (PARAMS (pyLower p)).isSome = true)
      ∧ (∀ raw : List String,
          (∃ p ∈ raw, (PARAMS (pyLower p)).isSome = false) →
            check_params raw = Except.error (EXIT_FAILURE, WRONG_PARAM_MSG))
      ∧ ("-l".data <:+: WRONG_PARAM_MSG.data)
      ∧ check_params ["DbT", "WS"] = Except.ok ["dbt", "ws"] := by
  refine ⟨?_, ?_, by decide, rfl⟩
  · intro raw
    unfold check_params
    by_cases hall : (raw.map pyLower).all (fun p => (PARAMS p).isSome) = true
    · rw [if_pos hall]
      constructor
      · intro _ p hp
        exact List.all_eq_true.mp hall _ (List.mem_map_of_mem pyLower hp)
      · intro _
        rfl
    · rw [if_neg hall]
      constructor
      · intro hcontra
        exact absurd hcontra (by simp)
      · intro hforall
        exact absurd (List.all_eq_true.mpr (fun x hx => by
          obtain ⟨p, hp, rfl⟩ := List.mem_map.mp hx
          exact hforall p hp)) hall
  · intro raw hex
    obtain ⟨p, hp, hfail⟩ := hex
    unfold check_params
    have hno : ¬ ((raw.map pyLower).all (fun p => (PARAMS p).isSome) = true) := by
      intro hall
      have := List.all_eq_true.mp hall _ (List.mem_map_of_mem pyLower hp)
      rw [hfail] at this
      cases this
    rw [if_neg hno]

theorem c6_witness :
    check_params ["zz"] = Except.error (EXIT_FAILURE, WRONG_PARAM_MSG) :=
  c6_unknown_param_error.2.1 ["zz"] (by decide)

/- Helper lemmas for the column projector. -/

lemma mapOpt_eq_map {α β : Type} (f : α → Option β) (g : α → β) :
    ∀ l : List α, (∀ a ∈ l, f a = some (g a)) → mapOpt f l = some (l.map g) := by
  intro l
  induction l with
  | nil => intro _; rfl
  | cons a t ih =>
    intro hall
    have ha := hall a (List.mem_cons_self a t)
    have ht := ih (fun x hx => hall x (List.mem_cons_of_mem a hx))
    simp [mapOpt, ha, ht]

lemma get?_eq_getD {α : Type} (l : List α) (n : Nat) (d : α) (h : n < l.length) :
    l.get? n = some (l.getD n d) := by
  rw [List.getD_eq_getElem?_getD, List.get?_eq_getElem?]
  cases hg : l[n]? with
  | none => exact absurd h (Nat.not_lt.mpr (List.getElem?_eq_none_iff.mp hg))
  | some b => rfl

/-- C7: when every requested code is in the catalog and the record has
enough fields, the projected row is the datetime fields followed by, for
each requested code in request order, the raw field at that code's catalog
column index. -/
theorem c7_projection (dt fields ps : List String)
    (h : ∀ p ∈ ps,
      (PARAMS p).isSome = true ∧ ((PARAMS p).getD (0, "")).1 < fields.length) :
    extract_params dt ps fields
      = some (dt ++ ps.map (fun p => fields.getD ((PARAMS p).getD (0, "")).1 "")) := by
  have h1 : mapOpt (fun p => (PARAMS p).map Prod.fst) ps
      = some (ps.map (fun p => ((PARAMS p).getD (0, "")).1)) := by
    apply mapOpt_eq_map
    intro p hp
    obtain ⟨hs, _⟩ := h p hp
    obtain ⟨e, he⟩ := Option.isSome_iff_exists.mp hs
    rw [he]
    rfl
  have h2 : mapOpt (fun i => fields.get? i) (ps.map (fun p => ((PARAMS p).getD (0, "")).1))
      = some ((ps.map (fun p => ((PARAMS p).getD (0, "")).1)).map
          (fun i => fields.getD i "")) := by
    apply mapOpt_eq_map
    intro i hi
    obtain ⟨p, hp, rfl⟩ := List.mem_map.mp hi
    exact get?_eq_getD fields _ "" (h p hp).2
  unfold extract_params
  simp only [List.get?_eq_getElem?] at h2
  simp [h1, h2, List.map_map, Function.comp, List.getD_eq_getElem?_getD]

theorem c7_witness :
    extract_params ["D", "T"]
        ["alts", "azis", "evg", "evd", "evgn", "evge", "evgs", "evgw", "eeg", "eed",
          "lvz", "rh", "wd", "ws", "dbt", "cvf", "cef", "ees", "uva", "uvb"]
        ["f00", "f01", "f02", "f03", "f04", "f05", "f06", "f07", "f08", "f09", "f10",
          "f11", "f12", "f13", "f14", "f15", "f16", "f17", "f18", "f19", "f20", "f21"]
      = some ["D", "T", "f02", "f03", "f04", "f05", "f06", "f07", "f08", "f09", "f10",
          "f11", "f12", "f13", "f14", "f15", "f16", "f17", "f18", "f19", "f20", "f21"] :=
  (c7_projection _ _ _ (by decide)).trans (by decide)

/- Helper lemmas about splitting and joining character lists. -/

lemma splitList_ne_nil (sep : Char) (l : List Char) : splitList sep l ≠ [] := by
  induction l with
  | nil => simp [splitList]
  | cons c cs ih =>
    simp only [splitList]
    by_cases hc : c = sep
    · simp [hc]
    · rw [if_neg hc]
      cases hs : splitList sep cs with
      | nil => exact absurd hs ih
      | cons f r => simp

lemma splitList_no_sep (sep : Char) (l : List Char) (h : sep ∉ l) :
    splitList sep l = [l] := by
  induction l with
  | nil => rfl
  | cons c cs ih =>
    simp only [List.mem_cons, not_or] at h
    obtain ⟨h1, h2⟩ := h
    have hc : ¬ c = sep := fun e => h1 e.symm
    simp only [splitList]
    rw [if_neg hc, ih h2]

lemma splitList_append (sep : Char) (x t : List Char) :
    sep ∉ x →
      splitList sep (x ++ t)
        = (x ++ (splitList sep t).headD []) :: (splitList sep t).tail := by
  induction x with
  | nil =>
    intro _
    simp only [List.nil_append]
    cases hs : splitList sep t with
    | nil => exact absurd hs (splitList_ne_nil sep t)
    | cons f r => simp
  | cons c cs ih =>
    intro hx
    simp only [List.mem_cons, not_or] at hx
    obtain ⟨h1, h2⟩ := hx
    have hc : ¬ c = sep := fun e => h1 e.symm
    simp only [List.cons_append, splitList, List.append_eq]
    rw [if_neg hc, ih h2]

lemma splitList_joinList (sep : Char) :
    ∀ lls : List (List Char), lls ≠ [] → (∀ l ∈ lls, sep ∉ l) →
      splitList sep (joinList sep lls) = lls := by
  intro lls
  induction lls with
  | nil => intro h _; exact absurd rfl h
  | cons x xs ih =>
    intro _ hall
    cases xs with
    | nil =>
      simp only [joinList]
      exact splitList_no_sep sep x (hall x (List.mem_cons_self x []))
    | cons y r =>
      have hx : sep ∉ x := hall x (List.mem_cons_self x (y :: r))
      have hyr : ∀ l ∈ y :: r, sep ∉ l := fun l hl => hall l (List.mem_cons_of_mem x hl)
      simp only [joinList]
      rw [splitList_append sep x (sep :: joinList sep (y :: r)) hx]
      have hrec : splitList sep (sep :: joinList sep (y :: r))
          = [] :: splitList sep (joinList sep (y :: r)) := by
        simp [splitList]
      rw [hrec, ih (by simp) hyr]
      simp

lemma joinList_concat (sep : Char) :
    ∀ (lls : List (List Char)) (x e : List Char),
      joinList sep (lls ++ [x ++ e]) = joinList sep (lls ++ [x]) ++ e := by
  intro lls
  induction lls with
  | nil => intro x e; simp [joinList]
  | cons y ys ih =>
    intro x e
    cases ys with
    | nil => simp [joinList, List.append_assoc]
    | cons z zs =>
      simp only [List.cons_append, joinList, List.append_eq]
      rw [← List.cons_append z zs [x ++ e], ← List.cons_append z zs [x], ih x e]
      simp [List.append_assoc]

lemma strOf_data (s : String) : strOf s.data = s := by
  cases s
  rfl

lemma data_strOf (l : List Char) : (strOf l).data = l := rfl

lemma map_strOf_data (l : List String) : l.map (strOf ∘ String.data) = l := by
  induction l with
  | nil => rfl
  | cons a t ih => simp [Function.comp, strOf_data, ih]

/-- C10 counterexample: with requested codes ["uvb", "ws"] the value
emitted for "uvb" does contain the embedded newline, but the output row is
not followed by an extra empty line: the written text is broken in two at
the embedded newline and no empty line occurs in it (the final "" below is
the terminator of the last written line, not an empty line). -/
theorem c10_counterexample :
    extract_data none none none ["uvb", "ws"] false
        (List.replicate 32 "p\n"
          ++ ["01/02/2003 04:05\tc01\tc02\tc03\tc04\tc05\tc06\tc07\tc08\tc09\tc10\tc11\tc12\tc13\tc14\tc15\tc16\tc17\tc18\tc19\tc20\tc21\n"])
        = some [["01/02/2003", "04:05", "c21\n", "c15"]]
      ∧ pySplit '\n' (renderOutput [["01/02/2003", "04:05", "c21\n", "c15"]])
          = ["01/02/2003\t04:05\tc21", "\tc15", ""]
      ∧ ("01/02/2003\t04:05\tc21" ≠ "" ∧ "\tc15" ≠ "") :=
  ⟨rfl, rfl, by decide⟩

/-- C10 amended: `line.split("\t")` keeps the line terminator, so the last
of the 22 fields (catalog column 21, code "uvb") retains the trailing
newline, and projecting "uvb" emits that value with the embedded newline;
when "uvb" is the last projected field the written row is the intended
tab-joined text followed by two newline characters — an extra empty line
(when "uvb" is projected before another code, the row is instead broken in
two at the embedded newline). -/
theorem c10_trailing_newline (fs0 : List String) (flast : String) (dt : List String)
    (h0 : ∀ f ∈ fs0, '\t' ∉ f.data) (h1 : '\t' ∉ flast.data) (hlen : fs0.length = 21) :
    pySplit '\t' (strOf (joinList '\t' ((fs0 ++ [flast]).map String.data) ++ ['\n']))
        = fs0 ++ [strOf (flast.data ++ ['\n'])]
      ∧ extract_params dt ["uvb"] (fs0 ++ [strOf (flast.data ++ ['\n'])])
          = some (dt ++ [strOf (flast.data ++ ['\n'])])
      ∧ out (dt ++ [strOf (flast.data ++ ['\n'])])
          = strOf (joinList '\t' ((dt ++ [flast]).map String.data) ++ ['\n', '\n']) := by
  refine ⟨?_, ?_, ?_⟩
  · unfold pySplit
    have hmap : (fs0 ++ [flast]).map String.data = fs0.map String.data ++ [flast.data] := by
      simp
    have hdata : (strOf (joinList '\t' ((fs0 ++ [flast]).map String.data) ++ ['\n'])).data
        = joinList '\t' (fs0.map String.data ++ [flast.data]) ++ ['\n'] := by
      rw [← hmap]
      rfl
    rw [hdata, ← joinList_concat '\t' (fs0.map String.data) flast.data ['\n']]
    rw [splitList_joinList '\t' _ (by simp) ?_]
    · rw [List.map_append, List.map_map, map_strOf_data]
      rfl
    · intro l hl
      rcases List.mem_append.mp hl with hm | hm
      · obtain ⟨f, hf, rfl⟩ := List.mem_map.mp hm
        exact h0 f hf
      · have he : l = flast.data ++ ['\n'] := by simpa using hm
        subst he
        intro hmem
        rcases List.mem_append.mp hmem with hm2 | hm2
        · exact h1 hm2
        · simp at hm2
  · have hget : (fs0 ++ [strOf (flast.data ++ ['\n'])])[(21 : Nat)]?
        = some (strOf (flast.data ++ ['\n'])) := by
      rw [← hlen]
      exact List.getElem?_concat_length fs0 _
    have hidx : mapOpt (fun p => (PARAMS p).map Prod.fst) ["uvb"] = some [21] := rfl
    have hvals : mapOpt (fun i => (fs0 ++ [strOf (flast.data ++ ['\n'])])[i]?) [21]
        = some [strOf (flast.data ++ ['\n'])] := by
      simp [mapOpt, hget]
    simp [extract_params, hidx, hvals]
  · unfold out
    have hmap : (dt ++ [strOf (flast.data ++ ['\n'])]).map String.data
        = dt.map String.data ++ [flast.data ++ ['\n']] := by
      simp [data_strOf]
    rw [hmap, joinList_concat '\t' (dt.map String.data) flast.data ['\n']]
    have hmap2 : (dt ++ [flast]).map String.data = dt.map String.data ++ [flast.data] := by
      simp
    rw [hmap2]
    simp [List.append_assoc]

theorem c10_witness :
    pySplit '\t' (strOf (joinList '\t' ((List.replicate 21 "z" ++ ["w"]).map String.data) ++ ['\n']))
        = List.replicate 21 "z" ++ [strOf ("w".data ++ ['\n'])]
      ∧ extract_params ["01/02/2003", "04:05"] ["uvb"]
          (List.replicate 21 "z" ++ [strOf ("w".data ++ ['\n'])])
          = some (["01/02/2003", "04:05"] ++ [strOf ("w".data ++ ['\n'])])
      ∧ out (["01/02/2003", "04:05"] ++ [strOf ("w".data ++ ['\n'])])
          = strOf (joinList '\t' ((["01/02/2003", "04:05"] ++ ["w"]).map String.data) ++ ['\n', '\n']) :=
  c10_trailing_newline (List.replicate 21 "z") "w" ["01/02/2003", "04:05"]
    (by decide) (by decide) (by decide)

end Idmp
